import Mathlib

/-!
# Verification of the GML-to-Cesium upload client (`src/cesium_helper.py` and friends)

A shallow embedding of the batch upload client.  Network interactions are
modelled by oracles (environments) that supply, for each step of the workflow,
the value the corresponding source method returns; `Except String α` models a
Python call that may let an exception escape the method's own handlers
(`.error e` carries `str(e)`), while handled request failures appear as the
source functions' own `None`/`False` return values.  Wall-clock time in the
polling loops is idealised: each network call is instantaneous and each
`time.sleep(k)` advances time by exactly `k` seconds, so a loop guarded by
`while time.time() - start < timeout` that sleeps `interval` seconds per
non-terminal iteration performs `⌈timeout / interval⌉` iterations.
-/

namespace GmlToAws

/-! ## Path helpers (`pathlib.Path.name` / `.stem`)

`Path(p).name` is the final path component; `Path(p).stem` removes the last
extension from the name: with `i = name.rfind('.')`, the stem is `name[:i]`
when `0 < i < len(name) - 1`, otherwise the whole name. -/

/-- Final path component: the characters after the last `'/'`
(`pathlib.Path.name` for paths without a trailing slash). -/
def nameChars (l : List Char) : List Char :=
  ((l.reverse.takeWhile (fun c => c ≠ '/')).reverse)

/-- Index of the last `'.'` in the list, if any (`str.rfind('.')`). -/
def lastDotIdx : List Char → Option Nat
  | [] => none
  | c :: cs =>
    match lastDotIdx cs with
    | some i => some (i + 1)
    | none => if c = '.' then some 0 else none

/-- `Path.stem` on a name: drop the last suffix when the last dot is neither
the first nor the last character. -/
def stemChars (name : List Char) : List Char :=
  match lastDotIdx name with
  | none => name
  | some i => if 0 < i ∧ i + 1 < name.length then name.take i else name

/-- `Path(file_path).name`. -/
def pathName (s : String) : String := ⟨nameChars s.data⟩

/-- `Path(file_path).stem`. -/
def pathStem (s : String) : String := ⟨stemChars (nameChars s.data)⟩

/-! ## `wait_for_processing` (cesium_helper.py lines 306-359)

One loop iteration observes either: `get_asset_status` returning `None`
(a `requests` failure handled inside that method), an exception raised in the
loop body and caught by its blanket `except`, or a fetched status string
(`asset.get('status', 'UNKNOWN')`). -/

inductive PollObs where
  | fetchError
  | exn (msg : String)
  | status (s : String)
deriving DecidableEq, Repr

/-- Body of the `while` loop of `wait_for_processing`; `fuel` is the number of
iterations the (idealised) timeout budget still allows, `i` counts polls. -/
def procLoop (obs : Nat → PollObs) : Nat → Nat → Bool × String
  | 0, _ => (false, "TIMEOUT")
  | fuel + 1, i =>
    match obs i with
    | .fetchError => (false, "ERROR_FETCHING_STATUS")
    | .exn _ => procLoop obs fuel (i + 1)
    | .status s =>
      if s = "COMPLETE" then (true, s)
      else if s = "ERROR" ∨ s = "DATA_ERROR" then (false, s)
      else procLoop obs fuel (i + 1)

/-- Iterations a `while time.time() - start < timeout` loop sleeping
`interval` seconds per non-terminal round performs: `⌈timeout / interval⌉`. -/
def pollIterations (timeout interval : Nat) : Nat := (timeout + interval - 1) / interval

/-- An observation on which the processing poll keeps waiting (sleeps and
retries) rather than returning. -/
def pendingObs : PollObs → Bool
  | .fetchError => false
  | .exn _ => true
  | .status s => !(s = "COMPLETE" || s = "ERROR" || s = "DATA_ERROR")

/-- `wait_for_processing(asset_id, timeout=900)`: poll every 10 s until
COMPLETE / ERROR / DATA_ERROR / fetch failure, or the budget is exhausted. -/
def wait_for_processing (obs : Nat → PollObs) (timeout : Nat := 900) : Bool × String :=
  procLoop obs (pollIterations timeout 10) 0

/-! ## `wait_for_archive_completion` (lines 696-751)

Here the status fetch is inlined into the loop's `try`, so a request failure
is caught by the blanket `except` and polling continues — there is no
`fetchError`-style early return. -/

inductive ArchObs where
  | exn (msg : String)
  | status (s : String)
deriving DecidableEq, Repr

/-- Body of the `while` loop of `wait_for_archive_completion` (5 s interval). -/
def archLoop (obs : Nat → ArchObs) : Nat → Nat → Bool × String
  | 0, _ => (false, "TIMEOUT")
  | fuel + 1, i =>
    match obs i with
    | .exn _ => archLoop obs fuel (i + 1)
    | .status s =>
      if s = "COMPLETE" then (true, s)
      else if s = "ERROR" ∨ s = "FAILED" then (false, s)
      else archLoop obs fuel (i + 1)

/-- `wait_for_archive_completion(archive_id, timeout=300)`. -/
def wait_for_archive_completion (obs : Nat → ArchObs) (timeout : Nat := 300) : Bool × String :=
  archLoop obs (pollIterations timeout 5) 0

/-! ## The upload workflow (`upload_gml_file`, lines 361-464)

Each inner method of `CesiumAPIHelper` is modelled by the value it returns,
supplied by a `TaskEnv`; an `Except.error e` models an exception escaping the
inner method's own handlers (e.g. a `KeyError` on a malformed JSON response,
which `create_asset_metadata` / `notify_upload_complete` do not catch because
they only handle `requests.exceptions.RequestException`).
`upload_file_to_s3` and `download_archive` catch every exception themselves,
so their oracles are plain values. -/

structure UploadLocation where
  bucket : String
  /-- the `prefix` field of the source's `uploadLocation` dict. -/
  keyPrefix : String
  accessKey : String
  secretAccessKey : String
  sessionToken : String
deriving DecidableEq, Repr

structure OnComplete where
  method : String
  url : String
deriving DecidableEq, Repr

/-- The parsed response of a successful `POST /v1/assets`
(`assetMetadata.id`, `uploadLocation`, `onComplete`). -/
structure CreateResponse where
  assetId : Nat
  uploadLocation : UploadLocation
  onComplete : OnComplete
deriving DecidableEq, Repr

/-- Oracle for a single task's network interactions.  Each field is the return
value of the corresponding source method (with `.error` = escaped exception). -/
structure TaskEnv where
  /-- `create_asset_metadata`: `none` = handled request failure (returns `None`). -/
  createResp : Except String (Option CreateResponse)
  /-- `upload_file_to_s3` (catches all exceptions, returns a Bool). -/
  s3Ok : Bool
  /-- `notify_upload_complete`. -/
  notify : Except String Bool
  /-- Per-iteration observations for `wait_for_processing`. -/
  procObs : Nat → PollObs
  /-- `create_archive`: `(success, archive_id, message)`. -/
  archiveCreate : Except String (Bool × Option String × String)
  /-- Per-iteration observations for `wait_for_archive_completion`. -/
  archObs : Nat → ArchObs
  /-- `download_archive`: `(success, download_path)` (catches all exceptions). -/
  download : Bool × Option String

/-- One record of `self.results['archived']`; `download_path = none` models
the dictionary without a `download_path` key. -/
structure ArchiveInfo where
  file : String
  asset_id : String
  archive_id : String
  download_path : Option String
deriving DecidableEq, Repr

/-- The 4-tuple `(filename, success_status, message, asset_id)` returned by
`upload_gml_file`. -/
structure TaskResult where
  filename : String
  success : Bool
  message : String
  asset_id : Option String
deriving DecidableEq, Repr

/-- The `try:` body of `upload_gml_file`; also returns the entries the task
appends to `self.results['archived']` while it runs. -/
def upload_gml_fileBody (env : TaskEnv) (file_path : String)
    (wait_for_completion create_archive download_archive : Bool) :
    Except String (TaskResult × List ArchiveInfo) := do
  let filename := pathName file_path
  -- Step 1: Create asset metadata
  match ← env.createResp with
  | none =>
    return (⟨filename, false, "Failed to create asset metadata", none⟩, [])
  | some response =>
    let asset_id := response.assetId
    -- Step 2: Upload file to S3
    if !env.s3Ok then
      return (⟨filename, false, "Failed to upload file to S3", some (toString asset_id)⟩, [])
    -- Step 3: Notify upload complete
    if !(← env.notify) then
      return (⟨filename, false, "Failed to notify upload completion",
        some (toString asset_id)⟩, [])
    -- Step 4: Optionally wait for processing
    if wait_for_completion then
      let (success, final_status) := wait_for_processing env.procObs
      if success then
        -- Step 5: Optionally create archive after successful processing
        if create_archive then
          let (archive_success, archive_id?, archive_message) ← env.archiveCreate
          match archive_id? with
          | some archive_id =>
            -- `if archive_success and archive_id:` (truthiness: `""` is falsy)
            if archive_success ∧ archive_id ≠ "" then
              -- Wait for archive completion
              let (archive_completed, archive_status) :=
                wait_for_archive_completion env.archObs
              if archive_completed then
                -- Step 6: Optionally download the archive
                if download_archive then
                  let (download_success, download_path?) := env.download
                  if download_success then
                    let download_path := download_path?.getD ""
                    let archive_info : ArchiveInfo :=
                      ⟨filename, toString asset_id, archive_id, some download_path⟩
                    return (⟨filename, true,
                      "Upload, processing, archive creation and download completed successfully (Asset ID: " ++
                        toString asset_id ++ ", Archive ID: " ++ archive_id ++
                        ", Downloaded to: " ++ download_path ++ ")",
                      some (toString asset_id)⟩, [archive_info])
                  else
                    let archive_info : ArchiveInfo :=
                      ⟨filename, toString asset_id, archive_id, none⟩
                    return (⟨filename, true,
                      "Upload, processing, and archive completed successfully, but download failed (Asset ID: " ++
                        toString asset_id ++ ", Archive ID: " ++ archive_id ++ ")",
                      some (toString asset_id)⟩, [archive_info])
                else
                  let archive_info : ArchiveInfo :=
                    ⟨filename, toString asset_id, archive_id, none⟩
                  return (⟨filename, true,
                    "Upload, processing, and archive completed successfully (Asset ID: " ++
                      toString asset_id ++ ", Archive ID: " ++ archive_id ++ ")",
                    some (toString asset_id)⟩, [archive_info])
              else
                return (⟨filename, true,
                  "Upload and processing completed, but archive failed with status: " ++
                    archive_status ++ " (Asset ID: " ++ toString asset_id ++ ")",
                  some (toString asset_id)⟩, [])
            else
              return (⟨filename, true,
                "Upload and processing completed, but archive creation failed: " ++
                  archive_message ++ " (Asset ID: " ++ toString asset_id ++ ")",
                some (toString asset_id)⟩, [])
          | none =>
            return (⟨filename, true,
              "Upload and processing completed, but archive creation failed: " ++
                archive_message ++ " (Asset ID: " ++ toString asset_id ++ ")",
              some (toString asset_id)⟩, [])
        else
          return (⟨filename, true,
            "Upload and processing completed successfully (Asset ID: " ++
              toString asset_id ++ ")", some (toString asset_id)⟩, [])
      else
        return (⟨filename, false,
          "Upload succeeded but processing failed with status: " ++ final_status ++
            " (Asset ID: " ++ toString asset_id ++ ")", some (toString asset_id)⟩, [])
    else
      return (⟨filename, true,
        "Upload initiated successfully (Asset ID: " ++ toString asset_id ++ ")",
        some (toString asset_id)⟩, [])

/-- `upload_gml_file`: the body wrapped in the catch-all
`except Exception as e: return filename, False, f"Unexpected error: {e}", None`. -/
def upload_gml_file (env : TaskEnv) (file_path : String)
    (wait_for_completion create_archive download_archive : Bool) :
    TaskResult × List ArchiveInfo :=
  match upload_gml_fileBody env file_path wait_for_completion create_archive download_archive with
  | .ok r => r
  | .error e => (⟨pathName file_path, false, "Unexpected error: " ++ e, none⟩, [])

/-! ## Result aggregation (`upload_files_parallel`, lines 466-539) -/

/-- One record of `results['success']`. -/
structure SuccessRec where
  file : String
  message : String
  asset_id : Option String
deriving DecidableEq, Repr

/-- One record of `results['failed']`. -/
structure FailedRec where
  file : String
  error : String
  asset_id : Option String
deriving DecidableEq, Repr

/-- `self.results`. -/
structure Results where
  success : List SuccessRec
  failed : List FailedRec
  archived : List ArchiveInfo
deriving DecidableEq, Repr

def emptyResults : Results := ⟨[], [], []⟩

/-- Record one completed future's outcome: append to exactly one of
`results['success']` / `results['failed']`, and keep the `archived` entries
the task itself appended while running. -/
def recordOutcome (res : Results) (o : TaskResult × List ArchiveInfo) : Results :=
  if o.1.success then
    { res with
      success := res.success ++ [⟨o.1.filename, o.1.message, o.1.asset_id⟩],
      archived := res.archived ++ o.2 }
  else
    { res with
      failed := res.failed ++ [⟨o.1.filename, o.1.message, o.1.asset_id⟩],
      archived := res.archived ++ o.2 }

/-- The outcomes of the submitted tasks, in submission order
(`executor.submit(self.upload_gml_file, file_path, ...)` per file). -/
def taskOutcomes (env : String → TaskEnv) (file_paths : List String)
    (wait_for_completion create_archive download_archive : Bool) :
    List (TaskResult × List ArchiveInfo) :=
  file_paths.map fun fp =>
    upload_gml_file (env fp) fp wait_for_completion create_archive download_archive

/-- Fold the completed futures into `self.results` (the `as_completed` loop). -/
def aggregateResults (outcomes : List (TaskResult × List ArchiveInfo)) : Results :=
  outcomes.foldl recordOutcome emptyResults

/-- `upload_files_parallel` with completions processed in submission order;
theorems about completion order quantify over permutations of `taskOutcomes`. -/
def upload_files_parallel (env : String → TaskEnv) (file_paths : List String)
    (wait_for_completion create_archive download_archive : Bool) : Results :=
  aggregateResults (taskOutcomes env file_paths wait_for_completion create_archive download_archive)

/-! ## `create_asset_metadata` request payload (lines 169-195) -/

structure AssetOptions where
  sourceType : String
  textureFormat : String
  geometryCompression : String
  clampToTerrain : Bool
  baseTerrainId : Nat
deriving DecidableEq, Repr

structure AssetPayload where
  name : String
  assetType : String
  description : String
  options : AssetOptions
deriving DecidableEq, Repr

/-- The JSON payload `create_asset_metadata` posts for a file. -/
def create_asset_payload (file_path : String) : AssetPayload :=
  { name := pathStem file_path,
    assetType := "3DTILES",
    description := "Uploaded GML file: " ++ pathName file_path ++
      " from Cesium Helper script",
    options :=
      { sourceType := "CITYGML",
        textureFormat := "KTX2",
        geometryCompression := "DRACO",
        clampToTerrain := true,
        baseTerrainId := 1 } }

/-! ## `download_archive` filename selection (lines 888-901) -/

/-- Characters kept by `"".join(c for c in archive_name if c.isalnum() or c in (' ', '-', '_', '.'))`. -/
def keepChar (c : Char) : Bool :=
  c.isAlphanum || c = ' ' || c = '-' || c = '_' || c = '.'

/-- Python `str.rstrip()`: drop trailing whitespace. -/
def rstripChars (l : List Char) : List Char :=
  (l.reverse.dropWhile Char.isWhitespace).reverse

/-- `safe_name` before the empty-name fallback. -/
def sanitizeName (s : String) : String :=
  ⟨rstripChars (s.data.filter keepChar)⟩

/-- A string containing no path separator (so `Path.stem` acts on it as on a
bare filename). -/
def noSlash (s : String) : Prop := ∀ ch ∈ s.data, ch ≠ '/'

/-- The `while archive_file_path.exists():` loop: starting from candidate
`cand`, repeatedly replace it by `stem(cand) ++ "_" ++ counter ++ ".zip"`
(with `counter` incremented each round) until the name is not taken.
`existing` is the set of filenames in the output directory; `fuel` bounds the
iterations (the source loop terminates because candidates strictly grow). -/
def findFreshName (existing : List String) : Nat → Nat → String → String
  | 0, _, cand => cand
  | fuel + 1, counter, cand =>
    if cand ∈ existing then
      findFreshName existing fuel (counter + 1)
        (pathStem cand ++ "_" ++ toString counter ++ ".zip")
    else cand

/-- The filename `download_archive` writes to, as a function of the names
already present in the output directory. -/
def chooseArchiveFileName (existing : List String) (archive_name archive_id : String) : String :=
  let safe0 := sanitizeName archive_name
  let safe_name := if safe0 = "" then "archive_" ++ archive_id else safe0
  findFreshName existing (existing.length + 1) 1 (safe_name ++ ".zip")

/-! ## Class surface and the missing `list_archived_assets` (C9)

The methods `class CesiumAPIHelper` defines (cesium_helper.py); nothing in the
repository defines or assigns `list_archived_assets`. -/

def cesiumAPIHelperMethods : List String :=
  ["__init__", "_log", "get_gml_files", "get_cesium_ion_assets_list",
   "get_asset_status", "create_asset_metadata", "upload_file_to_s3",
   "notify_upload_complete", "wait_for_processing", "upload_gml_file",
   "upload_files_parallel", "print_summary", "get_asset_ids_from_results",
   "create_archive", "wait_for_archive_completion",
   "create_archives_for_completed_assets", "download_archive",
   "get_archive_info", "download_all_completed_archives"]

/-- Python attribute lookup `self.<name>` on a `CesiumAPIHelper` instance:
`AttributeError` when the class does not define the method. -/
def lookupMethod (name : String) : Except String String :=
  if cesiumAPIHelperMethods.contains name then .ok name
  else .error ("AttributeError: 'CesiumAPIHelper' object has no attribute '" ++ name ++ "'")

/-- Summary of one archive as returned by a hypothetical archive listing. -/
structure ArchiveSummary where
  id : String
  name : String
  status : String
deriving DecidableEq, Repr

structure DownloadRecord where
  archive_id : String
  name : String
  success : Bool
  file_path : Option String
deriving DecidableEq, Repr

/-- `download_all_completed_archives` (lines 968-1066): its first action is
`self.list_archived_assets()`.  `dl` is an oracle for the per-archive
`download_archive` calls that would follow. -/
def download_all_completed_archives (dl : String → Bool × Option String) :
    Except String (List DownloadRecord) := do
  let _ ← lookupMethod "list_archived_assets"
  -- Unreachable: the lookup above always raises, since the class defines no
  -- such method; were it defined, the completed archives would be filtered
  -- and downloaded one by one.
  let archives : List ArchiveSummary := []
  let completed := archives.filter fun a => a.status = "COMPLETE"
  return completed.map fun a =>
    let r := dl a.id
    ⟨a.id, a.name, r.1, r.2⟩

/-- `list_archives` in check_status.py (lines 186-211): calls
`cesium_helper.list_archived_assets()` before printing any archive. -/
def check_status_list_archives : Except String (List ArchiveSummary) := do
  let _ ← lookupMethod "list_archived_assets"
  return []

/-- The `--list-only` path of `main` in download_archives.py (lines 70-72):
calls `cesium_helper.list_archived_assets()`. -/
def download_archives_list_only : Except String (List ArchiveSummary) := do
  let _ ← lookupMethod "list_archived_assets"
  return []

/-! ## Construction and the run as a whole (C7)

`CesiumAPIHelper.__init__` reads `CESIUM_ION_TOKEN` and raises `ValueError`
when it is missing (`if not self.token:` — absent or empty). `main` in
main.py builds the helper inside its `try:`, so that error aborts the run
before any task starts; otherwise the batch runs to completion. -/

/-- The token check of `CesiumAPIHelper.__init__`. -/
def initHelper (token : Option String) : Except String Unit :=
  match token with
  | none => .error "CESIUM_ION_TOKEN environment variable is required"
  | some t =>
    if t = "" then .error "CESIUM_ION_TOKEN environment variable is required"
    else .ok ()

inductive MainOutcome where
  | configError (msg : String)
  | noFiles
  | completed (res : Results)
deriving DecidableEq, Repr

/-- The core of `main` (main.py): construct the helper, scan for files, run
the batch.  A `ValueError` from construction is caught and reported as a
configuration error with no upload work performed. -/
def runMain (token : Option String) (env : String → TaskEnv) (gml_files : List String)
    (wait createArchives downloadArchives : Bool) : MainOutcome :=
  match initHelper token with
  | .error e => .configError e
  | .ok _ =>
    if gml_files.isEmpty then .noFiles
    else .completed (upload_files_parallel env gml_files wait createArchives downloadArchives)

/-! # Theorems -/

/-! ## Polling loop lemmas -/

theorem procLoop_pending_timeout (obs : Nat → PollObs) :
    ∀ (fuel i : Nat), (∀ k, k < fuel → pendingObs (obs (i + k)) = true) →
      procLoop obs fuel i = (false, "TIMEOUT") := by
  intro fuel
  induction fuel with
  | zero => intro i _; rfl
  | succ n ih =>
    intro i h
    have h0 : pendingObs (obs i) = true := by
      have := h 0 (Nat.succ_pos n)
      simpa using this
    have hrest : ∀ k, k < n → pendingObs (obs (i + 1 + k)) = true := by
      intro k hk
      have := h (k + 1) (Nat.succ_lt_succ hk)
      simpa [Nat.add_assoc, Nat.add_comm 1 k] using this
    cases hobs : obs i with
    | fetchError => rw [hobs] at h0; simp [pendingObs] at h0
    | exn msg => simp only [procLoop, hobs]; exact ih (i + 1) hrest
    | status s =>
      rw [hobs] at h0
      have h1 : s ≠ "COMPLETE" := by rintro rfl; simp [pendingObs] at h0
      have h2 : s ≠ "ERROR" := by rintro rfl; simp [pendingObs] at h0
      have h3 : s ≠ "DATA_ERROR" := by rintro rfl; simp [pendingObs] at h0
      simp only [procLoop, hobs]
      rw [if_neg h1, if_neg (by tauto : ¬(s = "ERROR" ∨ s = "DATA_ERROR"))]
      exact ih (i + 1) hrest

/-- C5: `wait_for_processing` returns `(True, 'COMPLETE')` on a fetched
`COMPLETE` status, `(False, s)` on a fetched `ERROR`/`DATA_ERROR` status `s`,
and `(False, 'TIMEOUT')` once the loop's whole time budget is exhausted
without a terminal status; with the default 900 s budget and the fixed 10 s
sleep, the timeout bounds the loop at 90 polls (900 s of loop time), not a
single call. -/
theorem wait_for_processing_terminal_outcomes :
    (∀ (obs : Nat → PollObs) (fuel i : Nat), obs i = .status "COMPLETE" →
      procLoop obs (fuel + 1) i = (true, "COMPLETE")) ∧
    (∀ (obs : Nat → PollObs) (fuel i : Nat) (s : String), obs i = .status s →
      (s = "ERROR" ∨ s = "DATA_ERROR") → procLoop obs (fuel + 1) i = (false, s)) ∧
    (∀ (obs : Nat → PollObs) (timeout : Nat),
      (∀ k, k < pollIterations timeout 10 → pendingObs (obs k) = true) →
      wait_for_processing obs timeout = (false, "TIMEOUT")) ∧
    (∀ obs : Nat → PollObs, wait_for_processing obs = procLoop obs 90 0) := by
  refine ⟨?_, ?_, ?_, ?_⟩
  · intro obs fuel i h
    simp [procLoop, h]
  · intro obs fuel i s h hs
    have hne : s ≠ "COMPLETE" := by
      rcases hs with hs | hs <;> subst hs <;> decide
    simp [procLoop, h, hne, hs]
  · intro obs timeout h
    exact procLoop_pending_timeout obs _ 0 (by simpa using h)
  · intro obs
    rfl

theorem wait_for_processing_terminal_outcomes_witness :
    procLoop (fun _ => .status "COMPLETE") 1 0 = (true, "COMPLETE") ∧
    procLoop (fun _ => .status "DATA_ERROR") 1 0 = (false, "DATA_ERROR") ∧
    wait_for_processing (fun _ => .exn "connection reset") 900 = (false, "TIMEOUT") := by
  refine ⟨wait_for_processing_terminal_outcomes.1 _ 0 0 rfl,
    wait_for_processing_terminal_outcomes.2.1 _ 0 0 "DATA_ERROR" rfl (Or.inr rfl),
    wait_for_processing_terminal_outcomes.2.2.1 _ 900 ?_⟩
  intro k _
  rfl

/-- C3 counterexample: with every status fetch failing transiently
(`get_asset_status` returns `None`), `wait_for_processing` terminates at the
very first poll with the terminal failure `(False, 'ERROR_FETCHING_STATUS')`
instead of continuing to poll (which would have ended in TIMEOUT). -/
theorem wait_for_processing_fetch_error_aborts :
    wait_for_processing (fun _ => PollObs.fetchError) 900 = (false, "ERROR_FETCHING_STATUS") ∧
    wait_for_processing (fun _ => PollObs.fetchError) 900 ≠ (false, "TIMEOUT") := by
  constructor
  · rfl
  · intro h
    rw [show wait_for_processing (fun _ => PollObs.fetchError) 900 =
      (false, "ERROR_FETCHING_STATUS") from rfl] at h
    simp at h

/-- C3 amended: an exception raised inside the polling loop body is swallowed
and polling continues with the next iteration, and a status outside
{COMPLETE, ERROR, DATA_ERROR} (in particular any unknown status) also
continues polling; but a fetch failure in which `get_asset_status` returns
`None` terminates the poll immediately with `(False, 'ERROR_FETCHING_STATUS')`. -/
theorem wait_for_processing_continuation_policy :
    (∀ (obs : Nat → PollObs) (fuel i : Nat) (msg : String), obs i = .exn msg →
      procLoop obs (fuel + 1) i = procLoop obs fuel (i + 1)) ∧
    (∀ (obs : Nat → PollObs) (fuel i : Nat) (s : String), obs i = .status s →
      s ≠ "COMPLETE" → s ≠ "ERROR" → s ≠ "DATA_ERROR" →
      procLoop obs (fuel + 1) i = procLoop obs fuel (i + 1)) ∧
    (∀ (obs : Nat → PollObs) (fuel i : Nat), obs i = .fetchError →
      procLoop obs (fuel + 1) i = (false, "ERROR_FETCHING_STATUS")) := by
  refine ⟨?_, ?_, ?_⟩
  · intro obs fuel i msg h
    simp [procLoop, h]
  · intro obs fuel i s h h1 h2 h3
    simp [procLoop, h, h1, h2, h3]
  · intro obs fuel i h
    simp [procLoop, h]

theorem wait_for_processing_continuation_policy_witness :
    procLoop (fun _ => .exn "boom") 3 0 = procLoop (fun _ => .exn "boom") 2 1 ∧
    procLoop (fun _ => .status "ODD") 3 0 = procLoop (fun _ => .status "ODD") 2 1 ∧
    procLoop (fun _ => .fetchError) 3 0 = (false, "ERROR_FETCHING_STATUS") := by
  exact ⟨wait_for_processing_continuation_policy.1 _ 2 0 "boom" rfl,
    wait_for_processing_continuation_policy.2.1 _ 2 0 "ODD" rfl
      (by decide) (by decide) (by decide),
    wait_for_processing_continuation_policy.2.2 _ 2 0 rfl⟩

/-! ## Batch bookkeeping (C1) -/

theorem aggregate_counts (os : List (TaskResult × List ArchiveInfo)) :
    ∀ init : Results,
      (os.foldl recordOutcome init).success.length + (os.foldl recordOutcome init).failed.length =
        init.success.length + init.failed.length + os.length := by
  induction os with
  | nil => intro init; simp
  | cons o rest ih =>
    intro init
    rw [List.foldl_cons, ih]
    by_cases h : o.1.success <;> simp [recordOutcome, h] <;> omega

/-- C1: for any set of input files and any completion order of the submitted
tasks, every task's outcome is appended to exactly one of
`results['success']` / `results['failed']`, so the two lists' lengths sum to
the number of input files. -/
theorem upload_files_parallel_success_failed_partition
    (env : String → TaskEnv) (file_paths : List String)
    (wait_for_completion create_archive download_archive : Bool)
    (completed : List (TaskResult × List ArchiveInfo))
    (hperm : completed.Perm
      (taskOutcomes env file_paths wait_for_completion create_archive download_archive)) :
    (aggregateResults completed).success.length +
      (aggregateResults completed).failed.length = file_paths.length := by
  have hlen : completed.length = file_paths.length := by
    rw [hperm.length_eq]
    simp [taskOutcomes]
  rw [aggregateResults, aggregate_counts, emptyResults]
  simpa using hlen

theorem upload_files_parallel_success_failed_partition_witness :
    (aggregateResults (taskOutcomes
        (fun _ => ⟨.ok none, false, .ok false, fun _ => .fetchError,
          .ok (false, none, ""), fun _ => .exn "", (false, none)⟩)
        ["data/a.gml", "data/b.gml"] false false false)).success.length +
      (aggregateResults (taskOutcomes
        (fun _ => ⟨.ok none, false, .ok false, fun _ => .fetchError,
          .ok (false, none, ""), fun _ => .exn "", (false, none)⟩)
        ["data/a.gml", "data/b.gml"] false false false)).failed.length = 2 :=
  upload_files_parallel_success_failed_partition _ _ false false false _ (List.Perm.refl _)

/-! ## Asset-id bookkeeping in `upload_gml_file` (C2) -/

theorem upload_gml_fileBody_ok_asset_id (env : TaskEnv) (fp : String)
    (w c d : Bool) (resp : CreateResponse) (b : Bool) (r : Bool × Option String × String)
    (hc : env.createResp = .ok (some resp)) (hn : env.notify = .ok b)
    (ha : env.archiveCreate = .ok r) :
    ∃ out : TaskResult × List ArchiveInfo,
      upload_gml_fileBody env fp w c d = .ok out ∧
      out.1.asset_id = some (toString resp.assetId) ∧
      out.1.filename = pathName fp := by
  obtain ⟨as, aid?, am⟩ := r
  rcases hwp : wait_for_processing env.procObs with ⟨ws, wst⟩
  rcases hwa : wait_for_archive_completion env.archObs with ⟨ac, ast⟩
  rcases hdl : env.download with ⟨ds, dp⟩
  simp only [upload_gml_fileBody, hc, hn, ha, hwp, hwa, hdl,
    Except.instMonad, Except.bind, Except.pure]
  repeat' split
  all_goals exact ⟨_, rfl, rfl, rfl⟩

/-- C2 counterexample: metadata creation succeeds (asset id 7), but the
notification step raises an exception; the catch-all handler reports the
failed task with `asset_id = None` although the failure happened after
metadata creation succeeded. -/
theorem upload_gml_file_post_metadata_failure_without_asset_id :
    upload_gml_file
      ⟨.ok (some ⟨7, ⟨"assets", "sources/7/", "AK", "SK", "ST"⟩,
          ⟨"POST", "https://api.cesium.com/v1/assets/7/uploadComplete"⟩⟩),
        true, .error "KeyError: 'method'", fun _ => .fetchError,
        .ok (false, none, ""), fun _ => .exn "", (false, none)⟩
      "data/x.gml" false false false =
      (⟨"x.gml", false, "Unexpected error: KeyError: 'method'", none⟩, []) := by
  rfl

/-- C2 amended: a task that fails at metadata creation has `asset_id = None`;
a task whose metadata creation succeeded and in which no later step lets an
exception escape always carries `asset_id = str(asset_id)` in its result; but
a task that fails because an unexpected exception escapes a step after
metadata creation is reported with `asset_id = None` by the catch-all
handler. -/
theorem upload_gml_file_asset_id_presence (env : TaskEnv) (fp : String)
    (w c d : Bool) :
    ((env.createResp = .ok none ∨ ∃ e, env.createResp = .error e) →
      (upload_gml_file env fp w c d).1.success = false ∧
      (upload_gml_file env fp w c d).1.asset_id = none) ∧
    (∀ (resp : CreateResponse) (b : Bool) (r : Bool × Option String × String),
      env.createResp = .ok (some resp) → env.notify = .ok b →
      env.archiveCreate = .ok r →
      (upload_gml_file env fp w c d).1.asset_id = some (toString resp.assetId)) ∧
    (∀ (resp : CreateResponse) (e : String),
      env.createResp = .ok (some resp) → env.s3Ok = true → env.notify = .error e →
      (upload_gml_file env fp w c d).1.success = false ∧
      (upload_gml_file env fp w c d).1.asset_id = none) := by
  refine ⟨?_, ?_, ?_⟩
  · rintro (h | ⟨e, h⟩) <;>
      simp [upload_gml_file, upload_gml_fileBody, h,
        Except.instMonad, Except.bind, Except.pure]
  · intro resp b r hc hn ha
    obtain ⟨out, hout, hid, -⟩ :=
      upload_gml_fileBody_ok_asset_id env fp w c d resp b r hc hn ha
    simp [upload_gml_file, hout, hid]
  · intro resp e hc hs3 hn
    simp [upload_gml_file, upload_gml_fileBody, hc, hs3, hn,
      Except.instMonad, Except.bind, Except.pure]

theorem upload_gml_file_asset_id_presence_witness :
    (upload_gml_file
      ⟨.ok (some ⟨42, ⟨"assets", "sources/42/", "AK", "SK", "ST"⟩, ⟨"POST", "u"⟩⟩),
        true, .ok true, fun _ => .status "COMPLETE",
        .ok (true, some "a1", "ok"), fun _ => .status "COMPLETE",
        (true, some "converted/a.zip")⟩
      "data/y.gml" true true true).1.asset_id = some "42" := by
  have h := (upload_gml_file_asset_id_presence
      ⟨.ok (some ⟨42, ⟨"assets", "sources/42/", "AK", "SK", "ST"⟩, ⟨"POST", "u"⟩⟩),
        true, .ok true, fun _ => .status "COMPLETE",
        .ok (true, some "a1", "ok"), fun _ => .status "COMPLETE",
        (true, some "converted/a.zip")⟩
      "data/y.gml" true true true).2.1
      ⟨42, ⟨"assets", "sources/42/", "AK", "SK", "ST"⟩, ⟨"POST", "u"⟩⟩
      true (true, some "a1", "ok") rfl rfl rfl
  exact h.trans (by decide)

/-! ## Totality of the task interface (C10) -/

theorem upload_gml_fileBody_shape (env : TaskEnv) (fp : String) (w c d : Bool) :
    (∃ e, upload_gml_fileBody env fp w c d = .error e) ∨
    (∃ out, upload_gml_fileBody env fp w c d = .ok out ∧
      out.1.filename = pathName fp) := by
  rcases hc : env.createResp with e | _ | resp
  · exact Or.inl ⟨e, by simp [upload_gml_fileBody, hc,
      Except.instMonad, Except.bind, Except.pure]⟩
  · have heq : upload_gml_fileBody env fp w c d =
        .ok (⟨pathName fp, false, "Failed to create asset metadata", none⟩, []) := by
      simp [upload_gml_fileBody, hc, Except.instMonad, Except.bind, Except.pure]
    exact Or.inr ⟨_, heq, rfl⟩
  · rcases hn : env.notify with e' | b
    · cases hs3 : env.s3Ok
      · have heq : upload_gml_fileBody env fp w c d =
            .ok (⟨pathName fp, false, "Failed to upload file to S3",
              some (toString resp.assetId)⟩, []) := by
          simp [upload_gml_fileBody, hc, hs3, Except.instMonad, Except.bind, Except.pure]
        exact Or.inr ⟨_, heq, rfl⟩
      · exact Or.inl ⟨e', by simp [upload_gml_fileBody, hc, hs3, hn,
          Except.instMonad, Except.bind, Except.pure]⟩
    · rcases ha : env.archiveCreate with e'' | r
      · rcases hwp : wait_for_processing env.procObs with ⟨ws, wst⟩
        cases hs3 : env.s3Ok <;> cases b <;> cases w <;> cases ws <;> cases c <;>
          simp only [upload_gml_fileBody, hc, hn, ha, hwp, hs3,
            Except.instMonad, Except.bind, Except.pure, Bool.not_true,
            Bool.not_false, if_true, if_false, ite_true, ite_false] <;>
          first
            | exact Or.inl ⟨_, rfl⟩
            | exact Or.inr ⟨_, rfl, rfl⟩
      · obtain ⟨out, hout, -, hf⟩ :=
          upload_gml_fileBody_ok_asset_id env fp w c d resp b r hc hn ha
        exact Or.inr ⟨out, hout, hf⟩

/-- C10: `upload_gml_file` is total at its public interface: it always
returns a `(filename, success, message, asset_id)` tuple (with `filename` the
basename of the input path), and whenever an unexpected exception escapes the
workflow body, the catch-all handler converts it into a failure result whose
message carries the exception text — no exception reaches the caller. -/
theorem upload_gml_file_total (env : TaskEnv) (fp : String) (w c d : Bool) :
    (upload_gml_file env fp w c d).1.filename = pathName fp ∧
    (∀ e, upload_gml_fileBody env fp w c d = .error e →
      upload_gml_file env fp w c d =
        (⟨pathName fp, false, "Unexpected error: " ++ e, none⟩, [])) := by
  constructor
  · rcases upload_gml_fileBody_shape env fp w c d with ⟨e, h⟩ | ⟨out, h, hf⟩
    · simp [upload_gml_file, h]
    · simp [upload_gml_file, h, hf]
  · intro e h
    simp [upload_gml_file, h]

theorem upload_gml_file_total_witness :
    upload_gml_file
      ⟨.error "boom", false, .ok false, fun _ => .fetchError,
        .ok (false, none, ""), fun _ => .exn "", (false, none)⟩
      "data/z.gml" false false false =
      (⟨"z.gml", false, "Unexpected error: boom", none⟩, []) := by
  have h := (upload_gml_file_total
      ⟨.error "boom", false, .ok false, fun _ => .fetchError,
        .ok (false, none, ""), fun _ => .exn "", (false, none)⟩
      "data/z.gml" false false false).2 "boom" rfl
  exact h.trans (by decide)

/-! ## Archive-stage failures are non-fatal (C4) -/

/-- C4: once processing succeeded, a failed archive creation, a failed or
timed-out archive poll, or a failed archive download never turns the task
into a failure: `upload_gml_file` still reports success; and in the
archive-created-but-download-failed case the archive is recorded (appended to
`results['archived']`) with no `download_path`. -/
theorem upload_gml_file_archive_failures_nonfatal (env : TaskEnv) (fp : String)
    (d : Bool) (resp : CreateResponse) (as : Bool) (aid? : Option String)
    (am wst : String)
    (hc : env.createResp = .ok (some resp)) (hs3 : env.s3Ok = true)
    (hn : env.notify = .ok true)
    (hwp : wait_for_processing env.procObs = (true, wst))
    (ha : env.archiveCreate = .ok (as, aid?, am)) :
    ((as = false ∨ aid? = none ∨ aid? = some "") →
      (upload_gml_file env fp true true d).1.success = true) ∧
    (∀ aid, aid? = some aid → aid ≠ "" → as = true →
      (wait_for_archive_completion env.archObs).1 = false →
      (upload_gml_file env fp true true d).1.success = true) ∧
    (∀ aid, aid? = some aid → aid ≠ "" → as = true →
      (wait_for_archive_completion env.archObs).1 = true →
      env.download.1 = false →
      (upload_gml_file env fp true true true).1.success = true ∧
      (upload_gml_file env fp true true true).2 =
        [⟨pathName fp, toString resp.assetId, aid, none⟩]) := by
  refine ⟨?_, ?_, ?_⟩
  · rintro (h | h | h)
    · subst h
      cases aid? <;>
        simp [upload_gml_file, upload_gml_fileBody, hc, hs3, hn, hwp, ha,
          Except.instMonad, Except.bind, Except.pure]
    · subst h
      simp [upload_gml_file, upload_gml_fileBody, hc, hs3, hn, hwp, ha,
        Except.instMonad, Except.bind, Except.pure]
    · subst h
      simp [upload_gml_file, upload_gml_fileBody, hc, hs3, hn, hwp, ha,
        Except.instMonad, Except.bind, Except.pure]
  · intro aid haid hne hsucc hwa
    subst haid; subst hsucc
    rcases hwac : wait_for_archive_completion env.archObs with ⟨ac, ast⟩
    rw [hwac] at hwa; simp only at hwa; subst hwa
    simp [upload_gml_file, upload_gml_fileBody, hc, hs3, hn, hwp, ha, hne, hwac,
      Except.instMonad, Except.bind, Except.pure]
  · intro aid haid hne hsucc hwa hdl
    subst haid; subst hsucc
    rcases hwac : wait_for_archive_completion env.archObs with ⟨ac, ast⟩
    rw [hwac] at hwa; simp only at hwa; subst hwa
    rcases hdle : env.download with ⟨ds, dp⟩
    rw [hdle] at hdl; simp only at hdl; subst hdl
    simp [upload_gml_file, upload_gml_fileBody, hc, hs3, hn, hwp, ha, hne, hwac,
      hdle, Except.instMonad, Except.bind, Except.pure]

theorem upload_gml_file_archive_failures_nonfatal_witness :
    (upload_gml_file
      ⟨.ok (some ⟨9, ⟨"assets", "sources/9/", "AK", "SK", "ST"⟩, ⟨"POST", "u"⟩⟩),
        true, .ok true, fun _ => .status "COMPLETE",
        .ok (true, some "arch9", "ok"), fun _ => .status "COMPLETE",
        (false, none)⟩
      "data/w.gml" true true true).1.success = true ∧
    (upload_gml_file
      ⟨.ok (some ⟨9, ⟨"assets", "sources/9/", "AK", "SK", "ST"⟩, ⟨"POST", "u"⟩⟩),
        true, .ok true, fun _ => .status "COMPLETE",
        .ok (true, some "arch9", "ok"), fun _ => .status "COMPLETE",
        (false, none)⟩
      "data/w.gml" true true true).2 = [⟨"w.gml", "9", "arch9", none⟩] := by
  have h := (upload_gml_file_archive_failures_nonfatal
      ⟨.ok (some ⟨9, ⟨"assets", "sources/9/", "AK", "SK", "ST"⟩, ⟨"POST", "u"⟩⟩),
        true, .ok true, fun _ => .status "COMPLETE",
        .ok (true, some "arch9", "ok"), fun _ => .status "COMPLETE",
        (false, none)⟩
      "data/w.gml" true ⟨9, ⟨"assets", "sources/9/", "AK", "SK", "ST"⟩, ⟨"POST", "u"⟩⟩
      true (some "arch9") "ok" "COMPLETE" rfl rfl rfl rfl rfl).2.2
      "arch9" rfl (by decide) rfl rfl rfl
  exact ⟨h.1, h.2.trans (by decide)⟩

/-! ## Construction and run-level aborts (C7) -/

/-- C7: with the credential absent (or empty, which the source's falsiness
check also rejects), constructing the helper raises the configuration
`ValueError` and the run ends in `configError` with no upload work performed
(the outcome carries no results); with a credential present, nothing else can
abort the run: it always proceeds to the completed batch. -/
theorem missing_token_aborts_run :
    (∀ (env : String → TaskEnv) (files : List String) (w c d : Bool),
      runMain none env files w c d =
        .configError "CESIUM_ION_TOKEN environment variable is required") ∧
    (∀ (env : String → TaskEnv) (files : List String) (w c d : Bool),
      runMain (some "") env files w c d =
        .configError "CESIUM_ION_TOKEN environment variable is required") ∧
    (∀ (t : String) (env : String → TaskEnv) (files : List String) (w c d : Bool),
      t ≠ "" → files ≠ [] →
      runMain (some t) env files w c d =
        .completed (upload_files_parallel env files w c d)) := by
  refine ⟨fun env files w c d => rfl, fun env files w c d => rfl, ?_⟩
  intro t env files w c d ht hf
  simp [runMain, initHelper, ht, hf]

theorem missing_token_aborts_run_witness :
    runMain (some "ion-token") (fun _ =>
        ⟨.ok none, false, .ok false, fun _ => .fetchError,
          .ok (false, none, ""), fun _ => .exn "", (false, none)⟩)
      ["data/a.gml"] false false false =
      .completed (upload_files_parallel (fun _ =>
        ⟨.ok none, false, .ok false, fun _ => .fetchError,
          .ok (false, none, ""), fun _ => .exn "", (false, none)⟩)
        ["data/a.gml"] false false false) :=
  missing_token_aborts_run.2.2 "ion-token" _ ["data/a.gml"] false false false
    (by decide) (by decide)

/-! ## The undefined `list_archived_assets` method (C9) -/

/-- C9: `CesiumAPIHelper` defines no `list_archived_assets` method, so
`download_all_completed_archives` fails with an `AttributeError` on its first
action — before any download oracle is consulted — and the archive-listing
entry points of check_status.py and download_archives.py fail in the same
way. -/
theorem list_archived_assets_undefined :
    cesiumAPIHelperMethods.contains "list_archived_assets" = false ∧
    (∀ dl : String → Bool × Option String,
      download_all_completed_archives dl =
        .error "AttributeError: 'CesiumAPIHelper' object has no attribute 'list_archived_assets'") ∧
    check_status_list_archives =
      .error "AttributeError: 'CesiumAPIHelper' object has no attribute 'list_archived_assets'" ∧
    download_archives_list_only =
      .error "AttributeError: 'CesiumAPIHelper' object has no attribute 'list_archived_assets'" := by
  exact ⟨by decide, fun dl => rfl, rfl, rfl⟩

/-! ## Metadata payload (C6) -/

theorem lastDotIdx_getElem :
    ∀ (l : List Char) (i : Nat), lastDotIdx l = some i → l[i]? = some '.' := by
  intro l
  induction l with
  | nil => intro i h; simp [lastDotIdx] at h
  | cons c cs ih =>
    intro i h
    simp only [lastDotIdx] at h
    cases hcs : lastDotIdx cs with
    | some j =>
      rw [hcs] at h
      obtain rfl : j + 1 = i := by simpa using h
      simpa using ih j hcs
    | none =>
      rw [hcs] at h
      by_cases hc : c = '.'
      · rw [if_pos hc] at h
        obtain rfl : (0 : Nat) = i := by simpa using h
        simp [hc]
      · rw [if_neg hc] at h
        simp at h

theorem stemChars_prefix (name : List Char) :
    ∃ ext, name = stemChars name ++ ext ∧ (ext = [] ∨ ext.head? = some '.') := by
  cases h : lastDotIdx name with
  | none =>
    refine ⟨[], ?_, Or.inl rfl⟩
    simp [stemChars, h]
  | some i =>
    by_cases hcond : 0 < i ∧ i + 1 < name.length
    · have hstem : stemChars name = List.take i name := by
        simp [stemChars, h, hcond]
      refine ⟨name.drop i, ?_, Or.inr ?_⟩
      · rw [hstem, List.take_append_drop]
      · rw [List.head?_drop]
        exact lastDotIdx_getElem name i h
    · have hstem : stemChars name = name := by
        simp [stemChars, h, hcond]
      exact ⟨[], by rw [hstem, List.append_nil], Or.inl rfl⟩

/-- C6: the creation payload names the asset after the file's basename with
its (last) extension stripped, and fixes `sourceType = CITYGML`,
`geometryCompression = DRACO`, `textureFormat = KTX2`; "extension stripped"
means the basename is the chosen name followed by a (possibly empty)
extension starting with a dot. -/
theorem create_asset_payload_fields (fp : String) :
    (create_asset_payload fp).name = pathStem fp ∧
    (create_asset_payload fp).options.sourceType = "CITYGML" ∧
    (create_asset_payload fp).options.geometryCompression = "DRACO" ∧
    (create_asset_payload fp).options.textureFormat = "KTX2" ∧
    ∃ ext : String, pathName fp = pathStem fp ++ ext ∧
      (ext.data = [] ∨ ext.data.head? = some '.') := by
  refine ⟨rfl, rfl, rfl, rfl, ?_⟩
  obtain ⟨ext, hsplit, hhead⟩ := stemChars_prefix (nameChars fp.data)
  refine ⟨⟨ext⟩, ?_, hhead⟩
  show String.mk (nameChars fp.data) = String.mk (stemChars (nameChars fp.data)) ++ String.mk ext
  rw [show String.mk (stemChars (nameChars fp.data)) ++ String.mk ext =
    String.mk (stemChars (nameChars fp.data) ++ ext) from rfl]
  exact congrArg String.mk hsplit

/-! ## Filename de-duplication in `download_archive` (C8) -/

theorem countP_lt_of_witness {α : Type} (p q : α → Bool)
    (himp : ∀ a, p a = true → q a = true) :
    ∀ (l : List α) (x : α), x ∈ l → q x = true → p x = false →
      l.countP p < l.countP q := by
  intro l
  induction l with
  | nil => intro x hx; simp at hx
  | cons a t ih =>
    intro x hx hq hp
    rcases List.mem_cons.mp hx with rfl | hx'
    · rw [List.countP_cons, List.countP_cons]
      have hmono : t.countP p ≤ t.countP q :=
        List.countP_mono_left (fun b _ hb => himp b hb)
      simp only [hp, hq, if_false, if_true, Bool.false_eq_true]
      omega
    · have h1 := ih x hx' hq hp
      rw [List.countP_cons, List.countP_cons]
      have h2 : (if p a = true then 1 else 0) ≤ (if q a = true then 1 else 0) := by
        by_cases hpa : p a = true
        · simp [hpa, himp a hpa]
        · simp [hpa]
      omega

theorem nameChars_eq_self (l : List Char) (h : ∀ ch ∈ l, ch ≠ '/') :
    nameChars l = l := by
  have ht : l.reverse.takeWhile (fun c => c ≠ '/') = l.reverse :=
    List.takeWhile_eq_self_iff.mpr
      (fun x hx => by simpa using h x (List.mem_reverse.mp hx))
  unfold nameChars
  rw [ht, List.reverse_reverse]

theorem lastDotIdx_append (l m : List Char) :
    lastDotIdx (l ++ m) =
      match lastDotIdx m with
      | some j => some (l.length + j)
      | none => lastDotIdx l := by
  induction l with
  | nil => cases hm : lastDotIdx m <;> simp [lastDotIdx, hm]
  | cons c t ih =>
    cases hm : lastDotIdx m with
    | some j =>
      rw [hm] at ih
      have ih' : lastDotIdx (t ++ m) = some (t.length + j) := ih
      have hstep : lastDotIdx ((c :: t) ++ m) =
          match lastDotIdx (t ++ m) with
          | some i => some (i + 1)
          | none => if c = '.' then some 0 else none := rfl
      rw [hstep, ih']
      show some (t.length + j + 1) = some ((c :: t).length + j)
      rw [List.length_cons]
      exact congrArg some (by omega)
    | none =>
      rw [hm] at ih
      have ih' : lastDotIdx (t ++ m) = lastDotIdx t := ih
      have hstep : lastDotIdx ((c :: t) ++ m) =
          match lastDotIdx (t ++ m) with
          | some i => some (i + 1)
          | none => if c = '.' then some 0 else none := rfl
      rw [hstep, ih']
      rfl

theorem pathStem_append_zip (x : String) (hx : x.data ≠ []) (hs : noSlash x) :
    pathStem (x ++ ".zip") = x := by
  have hdata : (x ++ ".zip").data = x.data ++ ['.', 'z', 'i', 'p'] := by
    rw [String.data_append]
  have hname : nameChars (x.data ++ ['.', 'z', 'i', 'p']) =
      x.data ++ ['.', 'z', 'i', 'p'] := by
    apply nameChars_eq_self
    intro ch hch
    rcases List.mem_append.mp hch with h | h
    · exact hs ch h
    · simp only [List.mem_cons, List.not_mem_nil, or_false] at h
      rcases h with rfl | rfl | rfl | rfl <;> decide
  have hld : lastDotIdx (x.data ++ ['.', 'z', 'i', 'p']) = some x.data.length := by
    rw [lastDotIdx_append]
    rfl
  have hlen : 0 < x.data.length := List.length_pos.mpr hx
  have hcond : 0 < x.data.length ∧
      x.data.length + 1 < (x.data ++ ['.', 'z', 'i', 'p']).length := by
    refine ⟨hlen, ?_⟩
    rw [List.length_append]
    show x.data.length + 1 < x.data.length + 4
    omega
  have hstem : stemChars (x.data ++ ['.', 'z', 'i', 'p']) = x.data := by
    simp only [stemChars, hld, if_pos hcond]
    exact List.take_left x.data _
  apply String.ext
  show stemChars (nameChars (x ++ ".zip").data) = x.data
  rw [hdata, hname, hstem]

theorem digitChar_ne_slash (n : Nat) : Nat.digitChar n ≠ '/' := by
  by_cases h : n < 16
  · interval_cases n <;> decide
  · have h16 : Nat.digitChar n = '*' := by
      unfold Nat.digitChar
      repeat rw [if_neg (by omega)]
    rw [h16]
    decide

theorem toDigitsCore_ne_slash :
    ∀ (fuel n : Nat) (acc : List Char), (∀ c ∈ acc, c ≠ '/') →
      ∀ c ∈ Nat.toDigitsCore 10 fuel n acc, c ≠ '/' := by
  intro fuel
  induction fuel with
  | zero => intro n acc hacc c hc; exact hacc c hc
  | succ f ih =>
    intro n acc hacc c hc
    simp only [Nat.toDigitsCore] at hc
    have hcons : ∀ c ∈ Nat.digitChar (n % 10) :: acc, c ≠ '/' := by
      intro c' hc'
      rcases List.mem_cons.mp hc' with rfl | hmem
      · exact digitChar_ne_slash _
      · exact hacc c' hmem
    by_cases hz : n / 10 = 0
    · rw [if_pos hz] at hc
      exact hcons c hc
    · rw [if_neg hz] at hc
      exact ih (n / 10) _ hcons c hc

theorem toString_nat_ne_slash (n : Nat) :
    ∀ c ∈ (toString n).data, c ≠ '/' := by
  intro c hc
  have : (toString n).data = Nat.toDigitsCore 10 (n + 1) n [] := rfl
  rw [this] at hc
  exact toDigitsCore_ne_slash (n + 1) n [] (by simp) c hc

theorem findFreshName_not_mem (existing : List String) :
    ∀ (fuel counter : Nat) (x : String), x.data ≠ [] → noSlash x →
      existing.countP (fun s => decide ((x ++ ".zip").length ≤ s.length)) < fuel →
      findFreshName existing fuel counter (x ++ ".zip") ∉ existing := by
  intro fuel
  induction fuel with
  | zero => intro counter x _ _ hcount; exact absurd hcount (Nat.not_lt_zero _)
  | succ n ih =>
    intro counter x hx hs hcount
    by_cases hmem : (x ++ ".zip") ∈ existing
    · have hstem := pathStem_append_zip x hx hs
      have hcand : pathStem (x ++ ".zip") ++ "_" ++ toString counter ++ ".zip" =
          (x ++ "_" ++ toString counter) ++ ".zip" := by rw [hstem]
      have hx'ne : (x ++ "_" ++ toString counter).data ≠ [] := by
        simp only [String.data_append]
        intro hcon
        rw [List.append_eq_nil, List.append_eq_nil] at hcon
        exact hx hcon.1.1
      have hdig : ∀ c ∈ (toString counter).data, c ≠ '/' :=
        fun c hc => toString_nat_ne_slash counter c hc
      have hs' : noSlash (x ++ "_" ++ toString counter) := by
        intro ch hch
        simp only [String.data_append] at hch
        rcases List.mem_append.mp hch with h | h
        · rcases List.mem_append.mp h with h' | h'
          · exact hs ch h'
          · simp only [List.mem_cons, List.not_mem_nil, or_false] at h'
            subst h'
            decide
        · exact hdig ch h
      have hlt : (x ++ ".zip").length <
          ((x ++ "_" ++ toString counter) ++ ".zip").length := by
        rw [String.length_append, String.length_append, String.length_append,
          String.length_append]
        have hone : ("_" : String).length = 1 := rfl
        rw [hone]
        omega
      have hcount' :
          existing.countP (fun s =>
            decide (((x ++ "_" ++ toString counter) ++ ".zip").length ≤ s.length)) < n := by
        have hstrict := countP_lt_of_witness
          (fun s => decide (((x ++ "_" ++ toString counter) ++ ".zip").length ≤ s.length))
          (fun s => decide ((x ++ ".zip").length ≤ s.length))
          (fun a ha => by
            simp only [decide_eq_true_eq] at ha ⊢
            have := Nat.le_of_lt hlt
            omega)
          existing (x ++ ".zip") hmem
          (by simp)
          (by
            simp only [decide_eq_false_iff_not, not_le]
            exact hlt)
        have hq_le : existing.countP
            (fun s => decide ((x ++ ".zip").length ≤ s.length)) ≤ n :=
          Nat.lt_succ_iff.mp hcount
        exact Nat.lt_of_lt_of_le hstrict hq_le
      have hrec := ih (counter + 1) (x ++ "_" ++ toString counter) hx'ne hs' hcount'
      simpa [findFreshName, hmem, hcand] using hrec
    · simp [findFreshName, hmem]

theorem mem_rstripChars {l : List Char} {ch : Char} (h : ch ∈ rstripChars l) :
    ch ∈ l := by
  unfold rstripChars at h
  rw [List.mem_reverse] at h
  exact List.mem_reverse.mp ((List.dropWhile_sublist _).subset h)

theorem sanitizeName_noSlash (s : String) : noSlash (sanitizeName s) := by
  intro ch hch heq
  subst heq
  have h1 : '/' ∈ s.data.filter keepChar := mem_rstripChars hch
  have h2 := List.of_mem_filter h1
  exact absurd h2 (by decide)

/-- C8: the name `download_archive` writes to is never one already present in
the output directory — the numeric-suffix loop runs until the name is fresh —
so two downloads whose archives sanitize to the same base name produce two
distinct files, the second never overwriting the first. -/
theorem download_archive_filename_dedup (existing : List String)
    (archive_name archive_id : String) (hid : noSlash archive_id) :
    chooseArchiveFileName existing archive_name archive_id ∉ existing ∧
    chooseArchiveFileName
        (chooseArchiveFileName existing archive_name archive_id :: existing)
        archive_name archive_id ∉
      chooseArchiveFileName existing archive_name archive_id :: existing ∧
    chooseArchiveFileName existing archive_name archive_id ≠
      chooseArchiveFileName
        (chooseArchiveFileName existing archive_name archive_id :: existing)
        archive_name archive_id := by
  set safe0 := sanitizeName archive_name with hsafe0
  set safe : String := if safe0 = "" then "archive_" ++ archive_id else safe0 with hsafe
  have hne : safe.data ≠ [] := by
    rw [hsafe]
    by_cases h0 : safe0 = ""
    · rw [if_pos h0]
      intro hcon
      rw [String.data_append, List.append_eq_nil] at hcon
      exact absurd hcon.1 (by decide)
    · rw [if_neg h0]
      intro hcon
      exact h0 (String.ext hcon)
  have hslash : noSlash safe := by
    rw [hsafe]
    by_cases h0 : safe0 = ""
    · rw [if_pos h0]
      intro ch hch
      rw [String.data_append] at hch
      rcases List.mem_append.mp hch with h | h
      · intro heq
        subst heq
        revert h
        decide
      · exact hid ch h
    · rw [if_neg h0]
      exact sanitizeName_noSlash archive_name
  have key : ∀ ex : List String,
      chooseArchiveFileName ex archive_name archive_id ∉ ex := by
    intro ex
    have heq : chooseArchiveFileName ex archive_name archive_id =
        findFreshName ex (ex.length + 1) 1 (safe ++ ".zip") := by
      rw [hsafe, hsafe0]
      rfl
    rw [heq]
    exact findFreshName_not_mem ex (ex.length + 1) 1 safe hne hslash
      (Nat.lt_succ_of_le (List.countP_le_length _))
  refine ⟨key existing, key _, ?_⟩
  intro heq
  exact key (chooseArchiveFileName existing archive_name archive_id :: existing)
    (by rw [← heq]; exact List.mem_cons_self _ _)

theorem download_archive_filename_dedup_witness :
    chooseArchiveFileName ["b.zip"] "b" "5" ∉ ["b.zip"] ∧
    chooseArchiveFileName
        (chooseArchiveFileName ["b.zip"] "b" "5" :: ["b.zip"]) "b" "5" ∉
      chooseArchiveFileName ["b.zip"] "b" "5" :: ["b.zip"] ∧
    chooseArchiveFileName ["b.zip"] "b" "5" ≠
      chooseArchiveFileName
        (chooseArchiveFileName ["b.zip"] "b" "5" :: ["b.zip"]) "b" "5" :=
  download_archive_filename_dedup ["b.zip"] "b" "5"
    (by intro ch hch heq; subst heq; revert hch; decide)

end GmlToAws
